import Mathlib

/-
Verification of the invoice-scanner core services against their
natural-language specification.

Modelling conventions, used throughout:
* JavaScript strings are modelled as `List Char`; the custom helpers below
  (`containsSub`, `lowerStr`, `trimStr`, `leadMatch`, ...) model the
  corresponding `String.prototype` methods on that representation.
* JavaScript numbers are modelled as exact rationals (`ℚ`).  `NaN` produced
  by a failed `parseFloat` is modelled as `Option.none`; the JS
  `x || default` idiom on numbers is modelled by `jsOrNum`, which maps the
  falsy values (`none`, i.e. NaN, and `0`) to the default.
* `Math.sqrt` is a floating-point primitive; it is modelled as an abstract
  parameter `msqrt : ℚ → ℚ`.  No claim below depends on its values.
* Out-of-range JS array access (`undefined`) inside arithmetic is modelled
  with `getD` defaults where the source cannot reach the out-of-range case.
* Remote calls are modelled as explicit oracle parameters; functions with
  observable effects additionally return the number of remote calls issued
  and the list of sleep durations performed.
-/

/-- Models `needle` being a prefix of `hay` (helper for substring search). -/
def leadMatch : List Char → List Char → Bool
  | [], _ => true
  | _ :: _, [] => false
  | n :: ns, h :: hs => n == h && leadMatch ns hs

/-- Models `hay.includes(needle)` from JavaScript. -/
def containsSub (hay needle : List Char) : Bool :=
  if leadMatch needle hay then true
  else
    match hay with
    | [] => false
    | _ :: t => containsSub t needle

/-- Models `s.toLowerCase()` (ASCII case folding suffices for the source). -/
def lowerStr (s : List Char) : List Char :=
  s.map Char.toLower

/-- Models the JavaScript whitespace class used by `trim` and `\s`. -/
def jsIsSpace (c : Char) : Bool :=
  c == ' ' || c == '\t' || c == '\n' || c == '\r' || c == '\x0b' || c == '\x0c'

/-- Models `s.trim()`. -/
def trimStr (s : List Char) : List Char :=
  ((s.dropWhile jsIsSpace).reverse.dropWhile jsIsSpace).reverse

/-- Numeric value of a digit string (most significant first). -/
def digitsToNat (cs : List Char) : Nat :=
  cs.foldl (fun acc c => acc * 10 + (c.toNat - 48)) 0

/-- Embeds a natural number into ℚ without invoking rational normalisation,
so that concrete results stay kernel-computable. -/
def natToQ (n : Nat) : ℚ :=
  ⟨(n : Int), 1, one_ne_zero, by simp⟩

/-- Embeds an integer into ℚ without invoking rational normalisation. -/
def intToQ (i : Int) : ℚ :=
  ⟨i, 1, one_ne_zero, by simp⟩

/-- Models `x || d` applied to a JS number parse result: `none` stands for
NaN, and both NaN and `0` are falsy. -/
def jsOrNum (o : Option ℚ) (d : ℚ) : ℚ :=
  match o with
  | none => d
  | some x => if x = 0 then d else x

/-- Catalog record, from `types.ts` (`Product`).  `metadata` is the extra-CSV
column map added by `parseCSV`; `embedding` is absent until indexed. -/
structure Product where
  id : List Char
  name : List Char
  localName : List Char
  unit : List Char
  category : Option (List Char)
  metadata : Option (List (List Char × List Char))
  embedding : Option (List ℚ)
deriving DecidableEq

/-- Models `cosineSimilarity` from `src/services/utils.ts` (lines 165-170):
`dot(a,b) / (|a| * |b|)`.  The JS `vecB[i]` access is modelled with default
`0` when out of range (the JS value would be NaN-propagating `undefined`);
`Math.sqrt` is the abstract parameter `msqrt`. -/
def cosineSimilarity (msqrt : ℚ → ℚ) (vecA vecB : List ℚ) : ℚ :=
  let dotProduct := (vecA.mapIdx fun i a => a * vecB.getD i 0).foldl (· + ·) 0
  let magnitudeA := msqrt (vecA.foldl (fun sum a => sum + a * a) 0)
  let magnitudeB := msqrt (vecB.foldl (fun sum b => sum + b * b) 0)
  dotProduct / (magnitudeA * magnitudeB)

/-- Models `findNearestNeighbors` from `src/services/utils.ts` (lines
172-188): guard on `database.some(p => p.embedding)`, filter to records with
an embedding, score by cosine similarity, sort descending (JS comparator
`(a, b) => b.similarity - a.similarity`, stable since ES2019, modelled by
`mergeSort`), take `k`, return the records. -/
def findNearestNeighbors (msqrt : ℚ → ℚ) (queryEmbedding : List ℚ)
    (database : List Product) (k : Nat) : List Product :=
  if !(database.any fun p => p.embedding.isSome) then []
  else
    ((((database.filter fun p => p.embedding.isSome).map
        fun p => (p, cosineSimilarity msqrt queryEmbedding (p.embedding.getD []))).mergeSort
        fun a b => decide (b.2 ≤ a.2)).take k).map Prod.fst

/-- Models the retrieval call site in `mapItemsWithRAG`
(`src/services/aiService.ts` lines 361-363): candidates are looked up only
when the query embedding is non-empty, else `[]`. -/
def retrieveCandidates (msqrt : ℚ → ℚ) (queryEmbedding : List ℚ)
    (database : List Product) : List Product :=
  if queryEmbedding.length > 0 then findNearestNeighbors msqrt queryEmbedding database 5
  else []

lemma findNearestNeighbors_length_of_any (msqrt : ℚ → ℚ) (q : List ℚ)
    (db : List Product) (k : Nat)
    (h : (db.any fun p => p.embedding.isSome) = true) :
    (findNearestNeighbors msqrt q db k).length =
      min k (db.filter fun p => p.embedding.isSome).length := by
  simp only [findNearestNeighbors, h, Bool.not_true, Bool.false_eq_true, if_false,
    List.length_map, List.length_take, List.length_mergeSort]

/-- C1: for every query, catalog and k, `findNearestNeighbors` returns at
most k records, each a catalog record carrying an embedding, ordered by
non-increasing cosine similarity to the query. -/
theorem findNearestNeighbors_topk_sorted (msqrt : ℚ → ℚ) (q : List ℚ)
    (db : List Product) (k : Nat) :
    (findNearestNeighbors msqrt q db k).length ≤ k ∧
    (∀ p ∈ findNearestNeighbors msqrt q db k,
        p ∈ db ∧ p.embedding.isSome = true) ∧
    List.Pairwise
      (fun p1 p2 => cosineSimilarity msqrt q (p2.embedding.getD []) ≤
        cosineSimilarity msqrt q (p1.embedding.getD []))
      (findNearestNeighbors msqrt q db k) := by
  by_cases hany : (db.any fun p => p.embedding.isSome) = true
  · set scored := (db.filter fun p => p.embedding.isSome).map
      fun p => (p, cosineSimilarity msqrt q (p.embedding.getD [])) with hscored
    set le : Product × ℚ → Product × ℚ → Bool := fun a b => decide (b.2 ≤ a.2) with hle
    have hunfold : findNearestNeighbors msqrt q db k =
        ((scored.mergeSort le).take k).map Prod.fst := by
      simp only [findNearestNeighbors, hany, Bool.not_true, Bool.false_eq_true, if_false,
        hscored, hle]
    have hmemScored : ∀ x ∈ scored,
        x.1 ∈ db ∧ x.1.embedding.isSome = true ∧
          x.2 = cosineSimilarity msqrt q (x.1.embedding.getD []) := by
      intro x hx
      rcases List.mem_map.mp hx with ⟨p, hp, rfl⟩
      rcases List.mem_filter.mp hp with ⟨hpdb, hpemb⟩
      exact ⟨hpdb, hpemb, rfl⟩
    have hmemSorted : ∀ x ∈ scored.mergeSort le,
        x.1 ∈ db ∧ x.1.embedding.isSome = true ∧
          x.2 = cosineSimilarity msqrt q (x.1.embedding.getD []) := by
      intro x hx
      exact hmemScored x ((List.mergeSort_perm scored le).mem_iff.mp hx)
    refine ⟨?_, ?_, ?_⟩
    · rw [hunfold]
      simp only [List.length_map, List.length_take]
      exact min_le_left _ _
    · intro p hp
      rw [hunfold] at hp
      rcases List.mem_map.mp hp with ⟨x, hx, rfl⟩
      have hx2 := hmemSorted x (List.take_subset k _ hx)
      exact ⟨hx2.1, hx2.2.1⟩
    · rw [hunfold]
      have htrans : ∀ a b c : Product × ℚ,
          le a b = true → le b c = true → le a c = true := by
        intro a b c hab hbc
        simp only [hle, decide_eq_true_eq] at *
        exact le_trans hbc hab
      have htotal : ∀ a b : Product × ℚ, (le a b || le b a) = true := by
        intro a b
        simp only [hle, Bool.or_eq_true, decide_eq_true_eq]
        exact le_total b.2 a.2
      have hsorted := List.sorted_mergeSort htrans htotal scored
      have htake : List.Pairwise (fun a b => le a b = true) ((scored.mergeSort le).take k) :=
        hsorted.sublist (List.take_sublist k _)
      refine List.pairwise_map.mpr ?_
      refine List.Pairwise.imp_of_mem ?_ htake
      intro a b ha hb hab
      have ha2 := hmemSorted a (List.take_subset k _ ha)
      have hb2 := hmemSorted b (List.take_subset k _ hb)
      simp only [hle, decide_eq_true_eq] at hab
      rw [← ha2.2.2, ← hb2.2.2]
      exact hab
  · have hempty : findNearestNeighbors msqrt q db k = [] := by
      simp only [findNearestNeighbors]
      rw [if_pos]
      simp [hany]
    rw [hempty]
    simp

/-- C1 witness: the sortedness theorem, applied at a concrete catalog. -/
theorem findNearestNeighbors_topk_sorted_witness :
    (findNearestNeighbors (fun x => x) [natToQ 1]
        [⟨"P1".data, "Apple".data, [], "kg".data, none, none, some [natToQ 1]⟩] 2).length ≤ 2 :=
  (findNearestNeighbors_topk_sorted (fun x => x) [natToQ 1]
    [⟨"P1".data, "Apple".data, [], "kg".data, none, none, some [natToQ 1]⟩] 2).1

/-- C7 (amended): `findNearestNeighbors` returns `[]` whenever no catalog
record has an embedding, regardless of the query; the empty-query guard
lives at the retrieval call site (`mapItemsWithRAG`), which yields `[]`
without calling `findNearestNeighbors` when the query embedding is empty. -/
theorem nearest_empty_guard :
    (∀ (msqrt : ℚ → ℚ) (q : List ℚ) (db : List Product) (k : Nat),
        (∀ p ∈ db, p.embedding = none) → findNearestNeighbors msqrt q db k = []) ∧
    (∀ (msqrt : ℚ → ℚ) (db : List Product), retrieveCandidates msqrt [] db = []) := by
  constructor
  · intro msqrt q db k h
    have hany : (db.any fun p => p.embedding.isSome) = false := by
      rw [List.any_eq_false]
      intro p hp
      rw [h p hp]
      simp
    simp only [findNearestNeighbors, hany]
    simp
  · intro msqrt db
    rfl

/-- C7 witness: a catalog with no embedded record yields `[]` even for a
non-empty query. -/
theorem nearest_empty_guard_witness :
    findNearestNeighbors (fun x => x) [natToQ 1]
      [⟨"P2".data, "Pear".data, [], "kg".data, none, none, none⟩] 5 = [] :=
  nearest_empty_guard.1 (fun x => x) [natToQ 1]
    [⟨"P2".data, "Pear".data, [], "kg".data, none, none, none⟩] 5 (by decide)

/-- C7 counterexample: with an empty query vector and a catalog that does
carry an embedded record, `findNearestNeighbors` itself returns a
non-empty list, so the empty-query clause of the claim is false of this
function (the guard is at the call site instead). -/
theorem nearest_empty_query_counterexample :
    findNearestNeighbors (fun x => x) []
      [⟨"P1".data, "Apple".data, [], "kg".data, none, none, some [natToQ 1]⟩] 5 ≠ [] := by
  intro hcontra
  have hlen := findNearestNeighbors_length_of_any (fun x => x) []
    [⟨"P1".data, "Apple".data, [], "kg".data, none, none, some [natToQ 1]⟩] 5 (by decide)
  rw [hcontra] at hlen
  simp at hlen

/-- Error value thrown by a remote operation, with the fields `retryOperation`
inspects: `message`, and the optional `status` / `code` numeric fields. -/
structure JsError where
  message : List Char
  status : Option Nat
  code : Option Nat
deriving DecidableEq

/-- Models `error?.status || error?.code`: `status` when present and truthy
(non-zero), else `code`. -/
def statusOrCode (e : JsError) : Option Nat :=
  match e.status with
  | some s => if s = 0 then e.code else some s
  | none => e.code

/-- Models the `isRetryable` classification inside `retryOperation`
(`src/services/aiService.ts` lines 65-77): lowercased message contains one
of the transient markers, or the numeric status/code is 429, 500 or 503. -/
def isRetryable (e : JsError) : Bool :=
  let msg := lowerStr e.message
  containsSub msg "429".data ||
  containsSub msg "quota".data ||
  containsSub msg "resource_exhausted".data ||
  containsSub msg "internal error".data ||
  containsSub msg "500".data ||
  containsSub msg "503".data ||
  statusOrCode e == some 429 ||
  statusOrCode e == some 500 ||
  statusOrCode e == some 503

deriving instance DecidableEq for Except

/-- Loop body of `retryOperation` (lines 61-85).  `op` gives the outcome of
attempt `i`; `fuel` is the number of loop iterations left (`maxRetries - i`,
made explicit so the recursion is structural); the second component of the
result collects the `sleep(delay)` durations performed.  Exhausted fuel is
the fall-through `throw new Error("Max retries exceeded")` on line 86. -/
def retryGo {α : Type} (op : Nat → Except JsError α) (maxRetries : Nat) :
    Nat → Nat → Nat → Except JsError α × List Nat
  | 0, _, _ => (Except.error ⟨"Max retries exceeded".data, none, none⟩, [])
  | fuel + 1, i, delay =>
    match op i with
    | Except.ok v => (Except.ok v, [])
    | Except.error e =>
      if i == maxRetries - 1 || !isRetryable e then (Except.error e, [])
      else
        let rest := retryGo op maxRetries fuel (i + 1) (delay * 2)
        (rest.1, delay :: rest.2)

/-- Models `retryOperation` (lines 55-87): up to `maxRetries` attempts with
exponential backoff starting at `initialDelay`. -/
def retryOperation {α : Type} (op : Nat → Except JsError α)
    (maxRetries : Nat) (initialDelay : Nat) : Except JsError α × List Nat :=
  retryGo op maxRetries maxRetries 0 initialDelay

lemma retryGo_success {α : Type} (op : Nat → Except JsError α)
    (errF : Nat → JsError) (maxRetries : Nat) (v : α) :
    ∀ (m i delay : Nat), i + m < maxRetries →
      (∀ j, j < m → op (i + j) = Except.error (errF (i + j))) →
      (∀ j, j < m → isRetryable (errF (i + j)) = true) →
      op (i + m) = Except.ok v →
      retryGo op maxRetries (maxRetries - i) i delay =
        (Except.ok v, (List.range m).map fun j => delay * 2 ^ j) := by
  intro m
  induction m with
  | zero =>
    intro i delay hlt _ _ hok
    have hfuel : maxRetries - i = (maxRetries - i - 1) + 1 := by omega
    rw [hfuel]
    simp only [retryGo]
    rw [show i + 0 = i from rfl] at hok
    rw [hok]
    simp
  | succ m ih =>
    intro i delay hlt herr hretry hok
    have hfuel : maxRetries - i = (maxRetries - i - 1) + 1 := by omega
    rw [hfuel]
    have h0 : op i = Except.error (errF i) := by simpa using herr 0 (by omega)
    have r0 : isRetryable (errF i) = true := by simpa using hretry 0 (by omega)
    have hne : (i == maxRetries - 1) = false := by
      simp only [beq_eq_false_iff_ne, ne_eq]
      omega
    simp only [retryGo, h0, r0, hne]
    simp only [Bool.not_true, Bool.or_false, Bool.false_or, Bool.or_self,
      Bool.false_eq_true, if_false]
    have hrec := ih (i + 1) (delay * 2) (by omega)
      (fun j hj => by have := herr (j + 1) (by omega); rwa [show i + (j + 1) = i + 1 + j by omega] at this)
      (fun j hj => by have := hretry (j + 1) (by omega); rwa [show i + (j + 1) = i + 1 + j by omega] at this)
      (by rwa [show i + 1 + m = i + (m + 1) by omega])
    have hfuel2 : maxRetries - i - 1 = maxRetries - (i + 1) := by omega
    rw [hfuel2, hrec]
    simp only [Prod.mk.injEq, true_and]
    rw [List.range_succ_eq_map]
    simp only [List.map_cons, List.map_map, pow_zero, mul_one]
    congr 1
    apply List.map_congr_left
    intro j hj
    simp only [Function.comp_apply]
    rw [pow_succ]
    ring

/-- C2: with maxAttempts 5 and initial delay 1000, an operation failing
`n < 5` times with retryable errors and then succeeding returns the success
value after exactly `n` waits (1000ms, then doubling); if all five attempts
fail with retryable errors, the fifth attempt_s error is returned after the
four waits, with no further retry. -/
theorem retryOperation_backoff :
    (∀ {α : Type} (op : Nat → Except JsError α) (errF : Nat → JsError) (n : Nat) (v : α),
      n < 5 →
      (∀ j, j < n → op j = Except.error (errF j)) →
      (∀ j, j < n → isRetryable (errF j) = true) →
      op n = Except.ok v →
      retryOperation op 5 1000 =
        (Except.ok v, (List.range n).map fun j => 1000 * 2 ^ j)) ∧
    (∀ {α : Type} (op : Nat → Except JsError α) (errF : Nat → JsError),
      (∀ j, j < 5 → op j = Except.error (errF j)) →
      (∀ j, j < 5 → isRetryable (errF j) = true) →
      retryOperation op 5 1000 =
        (Except.error (errF 4), [1000, 2000, 4000, 8000])) := by
  constructor
  · intro α op errF n v hn herr hretry hok
    have h := retryGo_success op errF 5 v n 0 1000 (by omega)
      (fun j hj => by simpa using herr j hj)
      (fun j hj => by simpa using hretry j hj)
      (by simpa using hok)
    simpa [retryOperation] using h
  · intro α op errF herr hretry
    have h0 := herr 0 (by omega)
    have h1 := herr 1 (by omega)
    have h2 := herr 2 (by omega)
    have h3 := herr 3 (by omega)
    have h4 := herr 4 (by omega)
    have r0 := hretry 0 (by omega)
    have r1 := hretry 1 (by omega)
    have r2 := hretry 2 (by omega)
    have r3 := hretry 3 (by omega)
    simp only [retryOperation, retryGo, h0, h1, h2, h3, h4, r0, r1, r2, r3]
    norm_num

/-- C2 witness: an operation that returns a simulated 429 twice and then the
value 7 succeeds after waits of 1000ms and 2000ms. -/
theorem retryOperation_backoff_witness :
    retryOperation
      (fun i => if i < 2 then Except.error ⟨"Simulated 429".data, none, none⟩
                else Except.ok 7) 5 1000 =
      (Except.ok 7, (List.range 2).map fun j => 1000 * 2 ^ j) :=
  retryOperation_backoff.1
    (fun i => if i < 2 then Except.error ⟨"Simulated 429".data, none, none⟩
              else Except.ok 7)
    (fun _ => ⟨"Simulated 429".data, none, none⟩) 2 7
    (by omega) (by decide) (by decide) (by decide)

/-- C9: a first-attempt failure that is not retryable (for example a 401) is
re-raised immediately: no sleep is performed and no further attempt runs. -/
theorem retryOperation_nonretryable {α : Type} (op : Nat → Except JsError α)
    (e : JsError) (h1 : op 0 = Except.error e) (h2 : isRetryable e = false) :
    retryOperation op 5 1000 = (Except.error e, []) := by
  simp [retryOperation, retryGo, h1, h2]

/-- C9 witness: a 401 error propagates immediately with no delays. -/
theorem retryOperation_nonretryable_witness :
    retryOperation (fun _ => (Except.error ⟨"Unauthorized 401".data, some 401, none⟩ :
        Except JsError Nat)) 5 1000 =
      (Except.error ⟨"Unauthorized 401".data, some 401, none⟩, []) :=
  retryOperation_nonretryable
    (fun _ => Except.error ⟨"Unauthorized 401".data, some 401, none⟩)
    ⟨"Unauthorized 401".data, some 401, none⟩ (by decide) (by decide)

/-- AI provider selector, from `types.ts` (`AIProvider`). -/
inductive Provider where
  | gemini : Provider
  | openai : Provider
deriving DecidableEq

/-- Models `BATCH_SIZE` in `generateEmbeddingsForDatabase` (line 102). -/
def batchSize : Provider → Nat
  | Provider.openai => 20
  | Provider.gemini => 1

/-- Models the inter-batch `delay` in `generateEmbeddingsForDatabase`
(line 154). -/
def interBatchDelay : Provider → Nat
  | Provider.openai => 10
  | Provider.gemini => 200

/-- Models `p.embedding && p.embedding.length > 0` (lines 108 and 121). -/
def hasNonemptyEmbedding (p : Product) : Bool :=
  match p.embedding with
  | some e => decide (e.length > 0)
  | none => false

/-- Joins string pieces with single spaces (models `Array.join(' ')`). -/
def joinSpace : List (List Char) → List Char
  | [] => []
  | [x] => x
  | x :: y :: rest => x ++ ' ' :: joinSpace (y :: rest)

/-- Models the `textToEmbed` template string of lines 124-125:
name, localName, `category || ''` and the joined metadata values, separated
by single spaces, then trimmed. -/
def textToEmbed (p : Product) : List Char :=
  let metadataText := match p.metadata with
    | some m => joinSpace (m.map Prod.snd)
    | none => []
  trimStr (p.name ++ ' ' :: p.localName ++ ' ' :: (p.category.getD []) ++ ' ' :: metadataText)

/-- Per-product body of the batch `Promise.all` (lines 119-147), with the
retried remote embed call abstracted as `oracle` (its `Except.error` case is
the caught-and-logged failure branch, which leaves the record unchanged).
Entry to `generateEmbeddingsForDatabase` has already established a non-empty
API key, so the key-missing sub-branch is unreachable. -/
def embedOneProduct (oracle : List Char → Except JsError (List ℚ)) (p : Product) : Product :=
  if hasNonemptyEmbedding p then p
  else
    let t := textToEmbed p
    if t.isEmpty then p
    else
      match oracle t with
      | Except.ok emb => { p with embedding := some emb }
      | Except.error _ => p

/-- Whether a product causes a remote embed call (it reaches line 129). -/
def issuesEmbedCall (p : Product) : Bool :=
  !hasNonemptyEmbedding p && !(textToEmbed p).isEmpty

/-- Batched loop of `generateEmbeddingsForDatabase` (lines 104-156),
structurally recursive on `fuel` (an upper bound on the list length; the
zero-fuel branch is unreachable when the bound holds).  Returns the updated
catalog, the number of remote embed calls issued, and the inter-batch sleep
durations performed.  A batch whose members all carry a non-empty embedding
is skipped with no calls and no sleep (lines 108-117). -/
def generateEmbeddingsGo (oracle : List Char → Except JsError (List ℚ))
    (provider : Provider) : Nat → List Product → List Product × Nat × List Nat
  | _, [] => ([], 0, [])
  | 0, _ :: _ => ([], 0, [])
  | fuel + 1, l@(_ :: _) =>
    let bs := batchSize provider
    let batch := l.take bs
    let rest := generateEmbeddingsGo oracle provider fuel (l.drop bs)
    if batch.all hasNonemptyEmbedding then
      (batch ++ rest.1, rest.2.1, rest.2.2)
    else
      (batch.map (embedOneProduct oracle) ++ rest.1,
       (batch.filter issuesEmbedCall).length + rest.2.1,
       interBatchDelay provider :: rest.2.2)

/-- Models `generateEmbeddingsForDatabase` (lines 90-159) with the remote
embed call abstracted as `oracle` and the `onProgress` UI callback dropped. -/
def generateEmbeddingsForDatabase (oracle : List Char → Except JsError (List ℚ))
    (provider : Provider) (products : List Product) : List Product × Nat × List Nat :=
  generateEmbeddingsGo oracle provider products.length products

lemma generateEmbeddingsGo_all_embedded (oracle : List Char → Except JsError (List ℚ))
    (provider : Provider) :
    ∀ (fuel : Nat) (l : List Product), l.length ≤ fuel →
      (∀ p ∈ l, hasNonemptyEmbedding p = true) →
      generateEmbeddingsGo oracle provider fuel l = (l, 0, []) := by
  intro fuel
  induction fuel with
  | zero =>
    intro l hlen _
    have : l = [] := List.eq_nil_of_length_eq_zero (by omega)
    subst this
    rfl
  | succ fuel ih =>
    intro l hlen hall
    match l with
    | [] => rfl
    | x :: xs =>
      have hbs : 1 ≤ batchSize provider := by cases provider <;> simp [batchSize]
      have hall' : ((x :: xs).take (batchSize provider)).all hasNonemptyEmbedding = true := by
        rw [List.all_eq_true]
        intro p hp
        exact hall p (List.take_subset _ _ hp)
      have hrest := ih ((x :: xs).drop (batchSize provider))
        (by simp only [List.length_drop]; simp at hlen ⊢; omega)
        (fun p hp => hall p (List.drop_subset _ _ hp))
      simp only [generateEmbeddingsGo, hall', if_true, hrest]
      simp [List.take_append_drop]

/-- C3: running the embedding indexer on a catalog in which every record
already has a non-empty embedding issues zero remote embed calls, performs
zero inter-batch sleeps, and returns the catalog unchanged, for either
provider and regardless of what the remote embedder would answer. -/
theorem generateEmbeddings_already_indexed_identity
    (oracle : List Char → Except JsError (List ℚ)) (provider : Provider)
    (products : List Product)
    (h : ∀ p ∈ products, hasNonemptyEmbedding p = true) :
    generateEmbeddingsForDatabase oracle provider products = (products, 0, []) :=
  generateEmbeddingsGo_all_embedded oracle provider products.length products le_rfl h

/-- C3 witness: a concrete two-record fully indexed catalog is returned
unchanged with zero calls and zero sleeps, under an oracle that would fail
if it were ever consulted. -/
theorem generateEmbeddings_already_indexed_identity_witness :
    generateEmbeddingsForDatabase (fun _ => Except.error ⟨"boom".data, none, none⟩)
      Provider.gemini
      [⟨"P1".data, "Apple".data, [], "kg".data, none, none, some [natToQ 1]⟩,
       ⟨"P2".data, "Pear".data, [], "kg".data, none, none, some [natToQ 2, natToQ 3]⟩] =
      ([⟨"P1".data, "Apple".data, [], "kg".data, none, none, some [natToQ 1]⟩,
        ⟨"P2".data, "Pear".data, [], "kg".data, none, none, some [natToQ 2, natToQ 3]⟩], 0, []) :=
  generateEmbeddings_already_indexed_identity
    (fun _ => Except.error ⟨"boom".data, none, none⟩) Provider.gemini
    [⟨"P1".data, "Apple".data, [], "kg".data, none, none, some [natToQ 1]⟩,
     ⟨"P2".data, "Pear".data, [], "kg".data, none, none, some [natToQ 2, natToQ 3]⟩]
    (by decide)

/-- Models `cell.replace(/[^0-9.]/g, '')` (lines 314-315). -/
def stripNonNumeric (cs : List Char) : List Char :=
  cs.filter fun c => c.isDigit || c == '.'

/-- Exact value of `<ip>.<fp>` with integer digits `ip` and fraction digits
`fp` (the division branch is taken only for a non-empty fraction, keeping
integer results kernel-computable). -/
def ratOfDigits (ip fp : List Char) : ℚ :=
  if fp.isEmpty then natToQ (digitsToNat ip)
  else natToQ (digitsToNat (ip ++ fp)) / natToQ (10 ^ fp.length)

/-- Models `parseFloat` on its inputs in this program, which are already
stripped to the alphabet of digits and dots: parse an optional integer part,
an optional dot and fraction part, ignore anything after; NaN (`none`) when
no digit is consumed. -/
def jsParseFloat (cs : List Char) : Option ℚ :=
  let ip := cs.takeWhile Char.isDigit
  let rest := cs.drop ip.length
  match rest with
  | '.' :: rest2 =>
    let fp := rest2.takeWhile Char.isDigit
    if ip.isEmpty && fp.isEmpty then none
    else some (ratOfDigits ip fp)
  | _ => if ip.isEmpty then none else some (natToQ (digitsToNat ip))

/-- Raw extracted line item: the `Partial<InvoiceItem>` pushed by
`extractRawItems` (line 319), whose three fields are always populated. -/
structure RawItem where
  raw_name : List Char
  raw_quantity : ℚ
  raw_price : ℚ
deriving DecidableEq

/-- Models `line.split('|').map(c => c.trim()).filter(c => c !== '')`
(line 311). -/
def rowCells (line : List Char) : List (List Char) :=
  ((line.splitOn '|').map trimStr).filter fun c => !c.isEmpty

/-- Models lines 313-315: name from the first cell, quantity and price from
the stripped second and third cells, with falsy-parse defaults 1 and 0. -/
def parseRowItem (line : List Char) : RawItem :=
  let cols := rowCells line
  ⟨cols.getD 0 [],
   jsOrNum (jsParseFloat (stripNonNumeric (cols.getD 1 []))) 1,
   jsOrNum (jsParseFloat (stripNonNumeric (cols.getD 2 []))) 0⟩

/-- Parser state of the response-table loop (`inTable` flag of line 298 and
the accumulated `items`). -/
structure ExtractState where
  inTable : Bool
  items : List RawItem
deriving DecidableEq

/-- Models one iteration of the `for (const line of lines)` loop of
`extractRawItems` (lines 300-323): a separator row (both `|` and `---`)
sets `inTable` and is skipped; before the separator, a pipe row mentioning
`description` or `quantity` (case-insensitive) is skipped as a header; any
other row whose trimmed text starts with `|` and has at least 3 non-empty
cells yields an item, unless its first cell contains `---` or equals
`description` (case-insensitive). -/
def extractStep (st : ExtractState) (line : List Char) : ExtractState :=
  if containsSub line "|".data && containsSub line "---".data then
    { st with inTable := true }
  else if !st.inTable && containsSub line "|".data &&
      (containsSub (lowerStr line) "description".data ||
       containsSub (lowerStr line) "quantity".data) then st
  else if leadMatch "|".data (trimStr line) then
    if (rowCells line).length ≥ 3 then
      let item := parseRowItem line
      if !containsSub item.raw_name "---".data &&
          !(lowerStr item.raw_name == "description".data) then
        { st with items := st.items ++ [item] }
      else st
    else st
  else st

/-- Models the response-parsing phase of `extractRawItems` (lines 295-324):
split the model response on newlines and run the table-row loop. -/
def extractRawItems (text : List Char) : List RawItem :=
  ((text.splitOn '\n').foldl extractStep ⟨false, []⟩).items

/-- C5: the extraction table parser maps `| Mango 250g | 3 | 150 |` to
name `Mango 250g`, quantity 3 and price 150, and maps `| Item | N/A | 80 |`
to quantity 1 (default after the stripped cell fails to parse) and
price 80. -/
theorem extract_row_examples :
    extractRawItems "| Mango 250g | 3 | 150 |".data =
      [⟨"Mango 250g".data, natToQ 3, natToQ 150⟩] ∧
    extractRawItems "| Item | N/A | 80 |".data =
      [⟨"Item".data, natToQ 1, natToQ 80⟩] := by
  constructor
  · decide
  · decide

/-- C8 (amended): the separator row (both `|` and `---`) sets the in-table
flag and yields no item, and header-like pipe rows before it yield none;
but data parsing is not gated on the flag: a pipe-delimited row with at
least 3 non-empty cells yields its item even when no separator row has been
seen, provided it does not trip the header or first-cell filters. -/
theorem extractStep_separator_and_rows :
    (∀ (st : ExtractState) (line : List Char),
      containsSub line "|".data = true → containsSub line "---".data = true →
      extractStep st line = ⟨true, st.items⟩) ∧
    (∀ (items : List RawItem) (line : List Char),
      containsSub line "---".data = false →
      containsSub line "|".data = true →
      (containsSub (lowerStr line) "description".data ||
        containsSub (lowerStr line) "quantity".data) = true →
      extractStep ⟨false, items⟩ line = ⟨false, items⟩) ∧
    (∀ (items : List RawItem) (line : List Char),
      containsSub line "---".data = false →
      containsSub (lowerStr line) "description".data = false →
      containsSub (lowerStr line) "quantity".data = false →
      leadMatch "|".data (trimStr line) = true →
      (rowCells line).length ≥ 3 →
      containsSub (parseRowItem line).raw_name "---".data = false →
      (lowerStr (parseRowItem line).raw_name == "description".data) = false →
      extractStep ⟨false, items⟩ line = ⟨false, items ++ [parseRowItem line]⟩) := by
  refine ⟨?_, ?_, ?_⟩
  · intro st line h1 h2
    simp [extractStep, h1, h2]
  · intro items line h1 h2 h3
    simp [extractStep, h1, h2, h3]
  · intro items line h1 h2 h3 h4 h5 h6 h7
    simp [extractStep, h1, h2, h3, h4, h5, h6, h7]

/-- C8 witness: a pipe row reaching the parser with the in-table flag still
false appends its parsed item. -/
theorem extractStep_separator_and_rows_witness :
    extractStep ⟨false, []⟩ "| Pear | 2 | 99 |".data =
      ⟨false, [parseRowItem "| Pear | 2 | 99 |".data]⟩ :=
  extractStep_separator_and_rows.2.2 [] "| Pear | 2 | 99 |".data
    (by decide) (by decide) (by decide) (by decide) (by decide) (by decide) (by decide)

/-- C8 counterexample: a response consisting of a single pipe-delimited data
row and no separator row at all still yields that row as an item, so the
claim that rows before any separator row yield no RawLineItems is false. -/
theorem extract_before_separator_counterexample :
    extractRawItems "| Mango | 3 | 150 |".data =
      [⟨"Mango".data, natToQ 3, natToQ 150⟩] := by
  decide

lemma jsOrNum_one_ne_zero (o : Option ℚ) : jsOrNum o 1 ≠ 0 := by
  match o with
  | none => exact one_ne_zero
  | some x =>
    simp only [jsOrNum]
    split
    · exact one_ne_zero
    · assumption

lemma extractStep_quantity_ne_zero (st : ExtractState) (line : List Char)
    (h : ∀ it ∈ st.items, it.raw_quantity ≠ 0) :
    ∀ it ∈ (extractStep st line).items, it.raw_quantity ≠ 0 := by
  unfold extractStep
  split
  · exact h
  · split
    · exact h
    · split
      · split
        · dsimp only
          split
          · intro it hit
            rcases List.mem_append.mp hit with hmem | hmem
            · exact h it hmem
            · rcases List.mem_singleton.mp hmem with rfl
              exact jsOrNum_one_ne_zero _
          · exact h
        · exact h
      · exact h

lemma extract_foldl_quantity_ne_zero :
    ∀ (lines : List (List Char)) (st : ExtractState),
      (∀ it ∈ st.items, it.raw_quantity ≠ 0) →
      ∀ it ∈ (lines.foldl extractStep st).items, it.raw_quantity ≠ 0 := by
  intro lines
  induction lines with
  | nil => intro st h; exact h
  | cons line rest ih =>
    intro st h
    exact ih (extractStep st line) (extractStep_quantity_ne_zero st line h)

/-- C10: extraction never produces an item with quantity 0 — the falsy
default applies to a parsed 0 as well as to an unparseable cell, so a
quantity cell `0` yields 1 — while a price cell `0` does stay 0. -/
theorem extract_quantity_never_zero :
    (∀ (text : List Char), ∀ it ∈ extractRawItems text, it.raw_quantity ≠ 0) ∧
    extractRawItems "| Widget | 0 | 5 |".data =
      [⟨"Widget".data, natToQ 1, natToQ 5⟩] ∧
    extractRawItems "| Widget | 2 | 0 |".data =
      [⟨"Widget".data, natToQ 2, natToQ 0⟩] := by
  refine ⟨?_, by decide, by decide⟩
  intro text it hit
  exact extract_foldl_quantity_ne_zero (text.splitOn '\n') ⟨false, []⟩
    (by intro x hx; cases hx) it hit

/-- C10 witness: the parsed item of the `0`-quantity row indeed has the
non-zero quantity 1. -/
theorem extract_quantity_never_zero_witness :
    (⟨"Widget".data, natToQ 1, natToQ 5⟩ : RawItem).raw_quantity ≠ 0 :=
  extract_quantity_never_zero.1 "| Widget | 0 | 5 |".data
    ⟨"Widget".data, natToQ 1, natToQ 5⟩ (by decide)

/-- Synthesis decision returned for one raw item by a chunk of the mapping
LLM call (the elements of `finalMappedResults`). -/
structure MappingEntry where
  raw_name : List Char
  matched_product_id : Option (List Char)
  reasoning : Option (List Char)
deriving DecidableEq

/-- Merged `InvoiceItem` produced by `mapItemsWithRAG` (lines 490-497). -/
structure MappedItem where
  raw_name : List Char
  raw_quantity : ℚ
  raw_price : ℚ
  matched_product_id : Option (List Char)
  reasoning : Option (List Char)
  candidates : List Product
deriving DecidableEq

/-- Models `x || null` on a string-or-null value: null, undefined and the
empty string all collapse to null. -/
def jsOrNull : Option (List Char) → Option (List Char)
  | some s => if s.isEmpty then none else some s
  | none => none

/-- Index-passing map, modelling `Array.prototype.map((x, idx) => ...)`. -/
def mapIdxGo {α β : Type} (f : Nat → α → β) : Nat → List α → List β
  | _, [] => []
  | i, x :: xs => f i x :: mapIdxGo f (i + 1) xs

/-- Models the final merge of `mapItemsWithRAG` (lines 486-498): for each
raw item, the first decision with equal `raw_name` is looked up in the
concatenated chunk results; `decision?.matched_product_id || null` and
`decision?.reasoning` are copied over, and the candidate list of the same
index is attached.  (`raw.raw_quantity || 0` and `raw.raw_price || 0` are
identities in the exact-rational model, the items coming from extraction
with all fields set.) -/
def mergeResults (rawItems : List RawItem) (candidatesByIdx : List (List Product))
    (finalMappedResults : List MappingEntry) : List MappedItem :=
  mapIdxGo (fun idx raw =>
    let decision := finalMappedResults.find? fun m => m.raw_name == raw.raw_name
    ⟨raw.raw_name, raw.raw_quantity, raw.raw_price,
     jsOrNull (decision.bind fun d => d.matched_product_id),
     decision.bind (fun d => d.reasoning),
     candidatesByIdx.getD idx []⟩) 0 rawItems

/-- Placeholder raw item for out-of-range `getD` in theorem statements. -/
def rawDummy : RawItem := ⟨[], 0, 0⟩

/-- Placeholder merged item for out-of-range `getD` in theorem statements. -/
def mergeDummy : MappedItem := ⟨[], 0, 0, none, none, []⟩

lemma mapIdxGo_getD {α β : Type} (f : Nat → α → β) (dA : α) (dB : β) :
    ∀ (l : List α) (s i : Nat), i < l.length →
      (mapIdxGo f s l).getD i dB = f (s + i) (l.getD i dA) := by
  intro l
  induction l with
  | nil => intro s i h; simp at h
  | cons x xs ih =>
    intro s i h
    match i with
    | 0 => simp [mapIdxGo]
    | i + 1 =>
      have := ih (s + 1) i (by simpa using h)
      simp only [mapIdxGo, List.getD_cons_succ, this]
      congr 1
      omega

lemma mergeResults_getD (rawItems : List RawItem) (cands : List (List Product))
    (mapped : List MappingEntry) (idx : Nat) (h : idx < rawItems.length) :
    (mergeResults rawItems cands mapped).getD idx mergeDummy =
      (let raw := rawItems.getD idx rawDummy
       let decision := mapped.find? fun m => m.raw_name == raw.raw_name
       ⟨raw.raw_name, raw.raw_quantity, raw.raw_price,
        jsOrNull (decision.bind fun d => d.matched_product_id),
        decision.bind (fun d => d.reasoning),
        cands.getD idx []⟩) := by
  unfold mergeResults
  rw [mapIdxGo_getD _ rawDummy mergeDummy rawItems 0 idx h]
  simp only [Nat.zero_add]

/-- C4: every raw item is matched to the first decision in the concatenated
chunk results whose `raw_name` equals its own; an item with no matching
decision merges to a null `matched_product_id`; and raw items sharing an
identical `raw_name` all receive the first matching decision. -/
theorem mergeResults_first_match :
    (∀ (rawItems : List RawItem) (cands : List (List Product))
        (mapped : List MappingEntry) (idx : Nat), idx < rawItems.length →
      ((mergeResults rawItems cands mapped).getD idx mergeDummy).matched_product_id =
        jsOrNull ((mapped.find? fun m =>
            m.raw_name == (rawItems.getD idx rawDummy).raw_name).bind
          fun d => d.matched_product_id)) ∧
    (∀ (rawItems : List RawItem) (cands : List (List Product))
        (mapped : List MappingEntry) (idx : Nat), idx < rawItems.length →
      (mapped.find? fun m => m.raw_name == (rawItems.getD idx rawDummy).raw_name) = none →
      ((mergeResults rawItems cands mapped).getD idx mergeDummy).matched_product_id = none) ∧
    (∀ (rawItems : List RawItem) (cands : List (List Product))
        (mapped : List MappingEntry) (i j : Nat),
      i < rawItems.length → j < rawItems.length →
      (rawItems.getD i rawDummy).raw_name = (rawItems.getD j rawDummy).raw_name →
      ((mergeResults rawItems cands mapped).getD i mergeDummy).matched_product_id =
        ((mergeResults rawItems cands mapped).getD j mergeDummy).matched_product_id) := by
  have hfield : ∀ (rawItems : List RawItem) (cands : List (List Product))
      (mapped : List MappingEntry) (idx : Nat), idx < rawItems.length →
      ((mergeResults rawItems cands mapped).getD idx mergeDummy).matched_product_id =
        jsOrNull ((mapped.find? fun m =>
            m.raw_name == (rawItems.getD idx rawDummy).raw_name).bind
          fun d => d.matched_product_id) := by
    intro rawItems cands mapped idx h
    rw [mergeResults_getD rawItems cands mapped idx h]
  refine ⟨hfield, ?_, ?_⟩
  · intro rawItems cands mapped idx h hnone
    rw [hfield rawItems cands mapped idx h, hnone]
    rfl
  · intro rawItems cands mapped i j hi hj hname
    rw [hfield rawItems cands mapped i hi, hfield rawItems cands mapped j hj, hname]

/-- C4 witness: a raw item named Tomato whose decision carries product id
P1 merges to matched id P1. -/
theorem mergeResults_first_match_witness :
    ((mergeResults [⟨"Tomato".data, natToQ 3, natToQ 30⟩] [[]]
        [⟨"Tomato".data, some "P1".data, some "exact match".data⟩]).getD 0
      mergeDummy).matched_product_id = some "P1".data :=
  (mergeResults_first_match.1 [⟨"Tomato".data, natToQ 3, natToQ 30⟩] [[]]
      [⟨"Tomato".data, some "P1".data, some "exact match".data⟩] 0 (by decide)).trans
    (by decide)

/-- Opening curly brace character (written via its code point so that no
raw brace appears in the source text). -/
def lbrace : Char := Char.ofNat 123

/-- Closing curly brace character. -/
def rbrace : Char := Char.ofNat 125

/-- Parsed JSON value, the result type of the `JSON.parse` model. -/
inductive Json where
  | null : Json
  | bool : Bool → Json
  | num : ℚ → Json
  | str : List Char → Json
  | arr : List Json → Json
  | obj : List (List Char × Json) → Json

/-- JSON whitespace skipping (space, tab, newline, carriage return). -/
def skipJsonWs (cs : List Char) : List Char :=
  cs.dropWhile fun c => c == ' ' || c == '\t' || c == '\n' || c == '\r'

/-- Value of a hexadecimal digit, for `\u` escapes. -/
def hexVal (c : Char) : Option Nat :=
  if c.isDigit then some (c.toNat - 48)
  else if 'a' ≤ c && c ≤ 'f' then some (c.toNat - 87)
  else if 'A' ≤ c && c ≤ 'F' then some (c.toNat - 55)
  else none

/-- JSON string-literal body parser (after the opening quote): returns the
decoded characters and the input after the closing quote. -/
def pStr : List Char → Option (List Char × List Char)
  | [] => none
  | '"' :: rest => some ([], rest)
  | '\\' :: 'u' :: h1 :: h2 :: h3 :: h4 :: rest =>
    (match hexVal h1, hexVal h2, hexVal h3, hexVal h4 with
     | some a, some b, some c, some d =>
       match pStr rest with
       | some (s, r) => some (Char.ofNat (((a * 16 + b) * 16 + c) * 16 + d) :: s, r)
       | none => none
     | _, _, _, _ => none)
  | '\\' :: e :: rest =>
    (match (if e == '"' then some '"' else if e == '\\' then some '\\'
            else if e == '/' then some '/' else if e == 'b' then some '\x08'
            else if e == 'f' then some '\x0c' else if e == 'n' then some '\n'
            else if e == 'r' then some '\r' else if e == 't' then some '\t'
            else none) with
     | some c =>
       match pStr rest with
       | some (s, r) => some (c :: s, r)
       | none => none
     | none => none)
  | c :: rest =>
    if c.toNat < 32 then none
    else
      match pStr rest with
      | some (s, r) => some (c :: s, r)
      | none => none

/-- Exact rational value of a JSON number with sign, integer digits,
fraction digits and decimal exponent (integer results avoid rational
normalisation so they stay kernel-computable). -/
def jsonNumVal (neg : Bool) (ip fp : List Char) (e : Int) : ℚ :=
  let mantissa : Int := (if neg then -1 else 1) * (digitsToNat (ip ++ fp) : Int)
  let ex : Int := e - (fp.length : Int)
  if ex = 0 then intToQ mantissa
  else if 0 ≤ ex then intToQ (mantissa * (10 : Int) ^ ex.toNat)
  else intToQ mantissa / natToQ (10 ^ (-ex).toNat)

/-- Optional-exponent tail of a JSON number. -/
def pNumTail (neg : Bool) (ip fp : List Char) : List Char → Option (Json × List Char)
  | [] => some (Json.num (jsonNumVal neg ip fp 0), [])
  | c :: t =>
    if c == 'e' || c == 'E' then
      let st := match t with
        | '+' :: t2 => ((1 : Int), t2)
        | '-' :: t2 => ((-1 : Int), t2)
        | _ => ((1 : Int), t)
      let ed := st.2.takeWhile Char.isDigit
      if ed.isEmpty then none
      else some (Json.num (jsonNumVal neg ip fp (st.1 * (digitsToNat ed : Int))),
        st.2.drop ed.length)
    else some (Json.num (jsonNumVal neg ip fp 0), c :: t)

/-- JSON number parser after the optional sign (leading zeros rejected, as
by `JSON.parse`). -/
def pNumCore (neg : Bool) (cs1 : List Char) : Option (Json × List Char) :=
  let ip := cs1.takeWhile Char.isDigit
  if ip.isEmpty then none
  else if 1 < ip.length && ip.getD 0 ' ' == '0' then none
  else
    match cs1.drop ip.length with
    | '.' :: t =>
      let f := t.takeWhile Char.isDigit
      if f.isEmpty then none
      else pNumTail neg ip f (t.drop f.length)
    | cs2 => pNumTail neg ip [] cs2

/-- JSON number parser. -/
def pNum : List Char → Option (Json × List Char)
  | '-' :: t => pNumCore true t
  | cs => pNumCore false cs

/-- Work item of the fueled JSON parser: a value, or the continuation of an
array or object whose earlier elements are in the accumulator. -/
inductive PJob where
  | val : PJob
  | arrTail : List Json → PJob
  | objTail : List (List Char × Json) → PJob

/-- Fueled recursive-descent JSON value parser (model of `JSON.parse`);
structural recursion on the fuel keeps it kernel-computable.  Expects its
input already whitespace-skipped. -/
def pStep : Nat → PJob → List Char → Option (Json × List Char)
  | 0, _, _ => none
  | fuel + 1, PJob.val, cs =>
    match cs with
    | [] => none
    | c :: rest =>
      if c == 'n' then
        if leadMatch "ull".data rest then some (Json.null, rest.drop 3) else none
      else if c == 't' then
        if leadMatch "rue".data rest then some (Json.bool true, rest.drop 3) else none
      else if c == 'f' then
        if leadMatch "alse".data rest then some (Json.bool false, rest.drop 4) else none
      else if c == '"' then
        match pStr rest with
        | some (s, r) => some (Json.str s, r)
        | none => none
      else if c == '[' then
        match skipJsonWs rest with
        | c2 :: r2 => if c2 == ']' then some (Json.arr [], r2)
                      else pStep fuel (PJob.arrTail []) (c2 :: r2)
        | [] => none
      else if c == lbrace then
        match skipJsonWs rest with
        | c2 :: r2 => if c2 == rbrace then some (Json.obj [], r2)
                      else pStep fuel (PJob.objTail []) (c2 :: r2)
        | [] => none
      else pNum (c :: rest)
  | fuel + 1, PJob.arrTail acc, cs =>
    match pStep fuel PJob.val cs with
    | some (v, rest) =>
      (match skipJsonWs rest with
       | c :: r2 =>
         if c == ',' then pStep fuel (PJob.arrTail (acc ++ [v])) (skipJsonWs r2)
         else if c == ']' then some (Json.arr (acc ++ [v]), r2)
         else none
       | [] => none)
    | none => none
  | fuel + 1, PJob.objTail acc, cs =>
    match cs with
    | c :: rest =>
      if c == '"' then
        match pStr rest with
        | some (key, r1) =>
          (match skipJsonWs r1 with
           | c2 :: r2 =>
             if c2 == ':' then
               match pStep fuel PJob.val (skipJsonWs r2) with
               | some (v, r3) =>
                 (match skipJsonWs r3 with
                  | c3 :: r4 =>
                    if c3 == ',' then
                      pStep fuel (PJob.objTail (acc ++ [(key, v)])) (skipJsonWs r4)
                    else if c3 == rbrace then some (Json.obj (acc ++ [(key, v)]), r4)
                    else none
                  | [] => none)
               | none => none
             else none
           | [] => none)
        | none => none
      else none
    | [] => none

/-- Models `JSON.parse`: parse one value and require only whitespace after
it; `none` models a thrown parse error. -/
def jsonParse (cs : List Char) : Option Json :=
  match pStep (2 * cs.length + 2) PJob.val (skipJsonWs cs) with
  | some (v, rest) => if (skipJsonWs rest).isEmpty then some v else none
  | none => none

/-- Fueled scan of `text.replace(/```json\s*|```/g, '')` (line 21): the
first alternative (with its trailing whitespace) is tried before the bare
fence at each position.  The fuel (an upper bound on the length) keeps the
recursion structural. -/
def stripFencesGo : Nat → List Char → List Char
  | 0, cs => cs
  | fuel + 1, cs =>
    if leadMatch "```json".data cs then
      stripFencesGo fuel ((cs.drop 7).dropWhile jsIsSpace)
    else if leadMatch "```".data cs then
      stripFencesGo fuel (cs.drop 3)
    else
      match cs with
      | [] => []
      | c :: rest => c :: stripFencesGo fuel rest

/-- Models the markdown-fence strip of `safeJSONParse` (line 21). -/
def stripCodeFences (cs : List Char) : List Char :=
  stripFencesGo cs.length cs

/-- Index of the last occurrence of `c` in `cs`. -/
def lastIdxOf (c : Char) (cs : List Char) : Option Nat :=
  match cs.reverse.findIdx? fun x => x == c with
  | some j => some (cs.length - 1 - j)
  | none => none

/-- End index of the regex alternative matching at position `p`, if any:
a brace (resp. bracket) at `p` matches greedily up to the last closing
brace (resp. bracket) in the whole string, which must lie beyond `p`.
This models the two alternatives of the extraction regex of line 23 at one
scan position (each alternative is an opening delimiter, then any
characters, greedily, then the closing delimiter). -/
def spanMatchAt (cs : List Char) (p : Nat) : Option Nat :=
  if cs.getD p ' ' == lbrace then
    match lastIdxOf rbrace cs with
    | some j => if p < j then some j else none
    | none => none
  else if cs.getD p ' ' == '[' then
    match lastIdxOf ']' cs with
    | some j => if p < j then some j else none
    | none => none
  else none

/-- Models the `cleanText.match` regex search of line 23: the match at the
leftmost position where either alternative succeeds. -/
def extractSpan (cs : List Char) : Option (List Char) :=
  match (List.range cs.length).find? (fun p => (spanMatchAt cs p).isSome) with
  | some p =>
    match spanMatchAt cs p with
    | some j => some ((cs.drop p).take (j - p + 1))
    | none => none
  | none => none

/-- The string handed to `JSON.parse` by `safeJSONParse` (lines 21-25):
fences stripped, trimmed, and narrowed to the regex match when one exists. -/
def cleanCandidate (text : List Char) : List Char :=
  let cleanText := trimStr (stripCodeFences text)
  match extractSpan cleanText with
  | some m => m
  | none => cleanText

/-- Models `safeJSONParse` (`src/services/aiService.ts` lines 18-30): parse
the cleaned candidate, returning the supplied fallback on any parse
failure. -/
def safeJSONParse (text : List Char) (fallback : Json) : Json :=
  match jsonParse (cleanCandidate text) with
  | some v => v
  | none => fallback

/-- Depth-counting scan for a matching close delimiter: given the input
after an opening delimiter and the current depth, returns the offset of the
balancing close. -/
def balScan (openC closeC : Char) : List Char → Nat → Nat → Option Nat
  | [], _, _ => none
  | c :: rest, depth, idx =>
    if c == closeC then
      if depth = 1 then some idx else balScan openC closeC rest (depth - 1) (idx + 1)
    else if c == openC then balScan openC closeC rest (depth + 1) (idx + 1)
    else balScan openC closeC rest depth (idx + 1)

/-- End index of the balanced object or array starting at position `p`, if
any (delimiter-depth matching). -/
def specBalancedAt (cs : List Char) (p : Nat) : Option Nat :=
  if cs.getD p ' ' == lbrace then
    match balScan lbrace rbrace (cs.drop (p + 1)) 1 0 with
    | some off => some (p + 1 + off)
    | none => none
  else if cs.getD p ' ' == '[' then
    match balScan '[' ']' (cs.drop (p + 1)) 1 0 with
    | some off => some (p + 1 + off)
    | none => none
  else none

/-- Modelled from the spec: the decoder behaviour the claim describes —
strip markdown code fences, locate the FIRST BALANCED JSON object or array
substring, parse it, and fall back on failure.  Defined only to compare the
claimed behaviour with the implemented `safeJSONParse`. -/
def specSafeJSONParse (text : List Char) (fallback : Json) : Json :=
  let cleanText := trimStr (stripCodeFences text)
  let cand :=
    match (List.range cleanText.length).find? (fun p => (specBalancedAt cleanText p).isSome) with
    | some p =>
      match specBalancedAt cleanText p with
      | some j => (cleanText.drop p).take (j - p + 1)
      | none => cleanText
    | none => cleanText
  match jsonParse cand with
  | some v => v
  | none => fallback

/-- C6 (amended): `safeJSONParse` is total; it strips markdown code fences,
narrows to the span from the first opening brace (or bracket) to the LAST
closing brace (resp. bracket) — a greedy, not balance-aware, match — and
returns the parsed value on success and the supplied fallback on any parse
failure, never propagating an error. -/
theorem safeJSONParse_total_fallback (text : List Char) (fallback : Json) :
    (jsonParse (cleanCandidate text) = none → safeJSONParse text fallback = fallback) ∧
    (∀ v, jsonParse (cleanCandidate text) = some v → safeJSONParse text fallback = v) := by
  constructor
  · intro h
    simp [safeJSONParse, h]
  · intro v h
    simp [safeJSONParse, h]

/-- C6 witness: a fence-wrapped non-JSON response falls back. -/
theorem safeJSONParse_total_fallback_witness :
    safeJSONParse "```json not json```".data (Json.str "FB".data) = Json.str "FB".data :=
  (safeJSONParse_total_fallback "```json not json```".data (Json.str "FB".data)).1 (by rfl)

/-- C6 counterexample: on the input consisting of a JSON object followed by
a stray closing brace, the implemented decoder grabs the greedy span up to
the LAST closing brace, fails to parse it and returns the fallback, while
the balanced-substring decoder the claim describes parses the object
successfully — so the two behaviours differ and the claim as stated is
false of the code. -/
theorem safeJSONParse_balanced_counterexample :
    safeJSONParse "\x7b\"a\":1\x7d\x7d".data (Json.str "FB".data) = Json.str "FB".data ∧
    specSafeJSONParse "\x7b\"a\":1\x7d\x7d".data (Json.str "FB".data) =
      Json.obj [("a".data, Json.num (intToQ 1))] := by
  constructor
  · rfl
  · rfl
